import Mathlib

/-!
Verification development for the Cypher translation engine of a GraphQL-to-Neo4j
library. The definitions below shallowly embed the relationship-filter compiler
(`src/packages/graphql/src/translate/where/property-operations/create-relationship-operation.ts`),
the connection edge subquery builder with its authorization predicates
(`createEdgeSubquery` in `create-connection-operation.ts`), the
connect-or-create parameter accumulation
(`src/packages/graphql/src/translate/connect-or-create/create-connect-or-create-and-params.ts`),
and spec-modelled parts whose implementation files are not present in the
source tree (the list-predicate mapping, `Node.getLabels`, the interface
branch combiner, the parameter-name generator, and the populated-by callback
application). Semantics of the emitted Cypher primitives (EXISTS, single,
size, AND/OR/NOT, apoc validate) are given by explicit evaluators.
-/

namespace GraphQLTranslate

/-! ### Cypher builder entities (shallow embedding of the @neo4j/cypher-builder constructs used) -/

/-- A Cypher node reference: `new Cypher.Node({ labels })`. Only the label list is
observable in the properties verified here. -/
structure CypherNode where
  labels : List String
deriving DecidableEq, Repr

/-- The relationship match pattern built by `createRelationshipOperation`:
`new Cypher.Relationship({source, target, type})` followed by `relationship.pattern(...)`.
The rendering options (`variable: true` / `labels: false` flags on each side) only
affect printed text and are omitted. -/
structure RelPattern where
  source : CypherNode
  target : CypherNode
  relType : String
deriving DecidableEq, Repr

/-- An inner (child-level) predicate, as produced by the where-predicate compiler for
the nested filter input. The compiler in this file only passes it through or negates
it (`Cypher.not`), so it is embedded as an opaque boolean function plus negation. -/
inductive CPred (α : Type) where
  | lift (f : α → Bool)
  | cnot (p : CPred α)

/-- Evaluation of an inner predicate at one related entity. -/
def CPred.eval {α : Type} : CPred α → α → Bool
  | .lift f, x => f x
  | .cnot p, x => !(p.eval x)

/-- The relationship-level predicates that `createRelationshipOperation` and
`createRelationshipSubqueryAndPredicate` emit:
`existsPattern pat`        = `EXISTS { MATCH pat }` (the null-check form, no WHERE);
`existsMatch pat inner`    = `EXISTS { MATCH pat WHERE inner }`
                             (`new Cypher.Match(matchPattern).where(innerOperation)` under `Cypher.Exists`);
`rnot` / `rand` / `ror`    = `Cypher.not` / `Cypher.and` / `Cypher.or`;
`sizeEq1 pat inner`        = `size([pat WHERE inner | 1]) = 1`
                             (`Cypher.eq(Cypher.size(PatternComprehension ...), Literal 1)`);
`singleMatch pat cv inner` = `single(cv IN [pat | cv] WHERE inner)`
                             (`Cypher.single(childNode, patternComprehension, innerOperation)`). -/
inductive RelPred (α : Type) where
  | existsPattern (pat : RelPattern)
  | existsMatch (pat : RelPattern) (inner : CPred α)
  | rnot (p : RelPred α)
  | rand (p q : RelPred α)
  | ror (p q : RelPred α)
  | sizeEq1 (pat : RelPattern) (inner : CPred α)
  | singleMatch (pat : RelPattern) (childVar : CypherNode) (inner : CPred α)

/-- Cypher semantics of the emitted predicates, evaluated at one target entity.
`G pat` lists the related entities reachable from the target through `pat`
(a fixture graph). `EXISTS` is nonemptiness, `single`/`size(...) = 1` are
cardinality-one checks over the matched candidates. -/
def RelPred.eval {α : Type} (G : RelPattern → List α) : RelPred α → Bool
  | .existsPattern pat => !(G pat).isEmpty
  | .existsMatch pat inner => (G pat).any (fun x => inner.eval x)
  | .rnot p => !(p.eval G)
  | .rand p q => p.eval G && q.eval G
  | .ror p q => p.eval G || q.eval G
  | .sizeEq1 pat inner => ((G pat).filter (fun x => inner.eval x)).length == 1
  | .singleMatch pat _ inner => ((G pat).filter (fun x => inner.eval x)).length == 1

/-- All match patterns referenced inside a compiled relationship predicate. -/
def RelPred.patternsOf {α : Type} : RelPred α → List RelPattern
  | .existsPattern pat => [pat]
  | .existsMatch pat _ => [pat]
  | .rnot p => p.patternsOf
  | .rand p q => p.patternsOf ++ q.patternsOf
  | .ror p q => p.patternsOf ++ q.patternsOf
  | .sizeEq1 pat _ => [pat]
  | .singleMatch pat _ _ => [pat]

/-! ### Schema model -/

/-- A schema-model node type as consumed by the translation: a name and an optional
custom-label override coming from the `@node(labels: [...])` directive. -/
structure SchemaNode where
  name : String
  labelOverride : Option (List String)
deriving DecidableEq, Repr

/-- Modelled from the spec: `Node.getLabels` (the `classes/Node` implementation is not
in the source tree). Spec section 4.2: "Custom label overrides on a Node (declared at
schema-model level) are substituted verbatim for the type's default label in every
pattern referencing that Node"; with no override the type's single default label is
its name (visible in the TCK snapshots, e.g. `(this:Actor)`, `(this_Movie:Film)`). -/
def SchemaNode.getLabels (n : SchemaNode) : List String :=
  match n.labelOverride with
  | some ls => ls
  | none => [n.name]

/-- The fields of `RelationField` read by `createRelationshipOperation`:
`typeMeta.name`, `typeMeta.array`, `direction`, `type`. -/
structure RelationField where
  typeMetaName : String
  typeMetaArray : Bool
  direction : String
  type : String
deriving DecidableEq, Repr

/-- The translation context fields used here: the list of schema nodes. -/
structure Context where
  nodes : List SchemaNode
deriving DecidableEq, Repr

/-- Modelled from the spec: `getListPredicate` (`translate/where/utils.ts` is not in
the source tree). Spec section 4.1 maps the filter operators to list predicates:
`SOME`/default to the plain existence form (the string `"any"`, compared against by
`createRelationshipOperation`), `ALL` to `"all"`, `NONE` to `"none"`, `NOT` to
`"not"`, `SINGLE` to `"single"`. -/
def getListPredicate : Option String → String
  | some "ALL" => "all"
  | some "NOT" => "not"
  | some "NONE" => "none"
  | some "SINGLE" => "single"
  | _ => "any"

/-! ### createRelationshipSubqueryAndPredicate -/

/-- Embedding of `createRelationshipSubqueryAndPredicate`
(create-relationship-operation.ts, lines 118-175). `"all"` builds the conjunction of
`EXISTS` over the match-with-predicate and `NOT EXISTS` over the
match-with-negated-predicate; `"not"`/`"none"` recursively build the `"some"` form and
negate it; `"single"` uses `size(...) = 1` when `edgePredicate` is set and the
`single()` primitive otherwise; `"some"` and the default build a plain `EXISTS`.
Returns `none` when there is no inner operation. -/
def createRelationshipSubqueryAndPredicate {α : Type} (matchPattern : RelPattern)
    (listPredicateStr : String) (childNode : CypherNode)
    (innerOperation : Option (CPred α)) (edgePredicate : Bool) : Option (RelPred α) :=
  match innerOperation with
  | none => none
  | some inner =>
    if listPredicateStr = "all" then
      some (RelPred.rand (RelPred.existsMatch matchPattern inner)
        (RelPred.rnot (RelPred.existsMatch matchPattern (CPred.cnot inner))))
    else if listPredicateStr = "not" ∨ listPredicateStr = "none" then
      match createRelationshipSubqueryAndPredicate matchPattern "some" childNode
          (some inner) false with
      | some somePredicate => some (RelPred.rnot somePredicate)
      | none => none
    else if listPredicateStr = "single" then
      if edgePredicate then
        some (RelPred.sizeEq1 matchPattern inner)
      else
        some (RelPred.singleMatch matchPattern childNode inner)
    else
      some (RelPred.existsMatch matchPattern inner)
termination_by (if listPredicateStr = "not" ∨ listPredicateStr = "none" then 1 else 0)
decreasing_by
  simp_all

/-! ### createRelationshipOperation -/

/-- Result shape of the injected `createWherePredicate` (create-where-predicate.ts is
not in the source tree, so the recursive where compiler is passed in as a function):
a predicate over the child node, opaque precomputed subqueries, and the return
variables of aggregation filters. -/
structure WherePredicateResult (α σ : Type) where
  predicate : Option (CPred α)
  preComputedSubqueries : Option σ
  returnVariables : List String

/-- The precomputed-subquery component of `createRelationshipOperation`'s result:
either the inner compiler's subqueries passed through, or the aggregating form
`Cypher.concat(OptionalMatch(matchPattern), preComputedSubqueries, With(collect ...))`. -/
inductive PreComputedSubquery (σ : Type) where
  | passthrough (s : σ)
  | aggregating (pat : RelPattern) (subs : Option σ) (returnVars : List String)

/-- Result of `createRelationshipOperation`. -/
structure RelationshipOperationResult (α σ : Type) where
  predicate : Option (RelPred α)
  preComputedSubquery : Option (PreComputedSubquery σ)

/-- The relationship pattern built by `createRelationshipOperation`: for direction
`"IN"` the child is the source and the parent the target, otherwise the reverse. -/
def relationshipMatchPattern (relationField : RelationField)
    (parentNode childNode : CypherNode) : RelPattern :=
  { source := if relationField.direction = "IN" then childNode else parentNode
    target := if relationField.direction = "IN" then parentNode else childNode
    relType := relationField.type }

/-- Embedding of `createRelationshipOperation` (create-relationship-operation.ts,
lines 27-116). Looks up the referenced node (error if absent), builds the match
pattern, handles the null literal via `EXISTS`/`NOT EXISTS` with no inner predicate,
downgrades the `"any"` list predicate to `"single"` for non-array (to-one)
relationship fields, runs the injected where compiler `cwp` for the nested input,
and combines through `createRelationshipSubqueryAndPredicate`. -/
def createRelationshipOperation {α σ ω : Type}
    (cwp : ω → CypherNode → SchemaNode → String → WherePredicateResult α σ)
    (relationField : RelationField) (context : Context) (parentNode : CypherNode)
    (operator : Option String) (value : Option ω) (isNot : Bool) :
    Except String (RelationshipOperationResult α σ) :=
  match context.nodes.find? (fun n => n.name == relationField.typeMetaName) with
  | none => Except.error "Relationship filters must reference nodes"
  | some refNode =>
    let childNode : CypherNode := { labels := refNode.getLabels }
    let matchPattern := relationshipMatchPattern relationField parentNode childNode
    match value with
    | none =>
      if !isNot then
        Except.ok { predicate := some (RelPred.rnot (RelPred.existsPattern matchPattern)),
                    preComputedSubquery := none }
      else
        Except.ok { predicate := some (RelPred.existsPattern matchPattern),
                    preComputedSubquery := none }
    | some v =>
      let listPredicateStr0 := getListPredicate operator
      let listPredicateStr :=
        if listPredicateStr0 == "any" && !relationField.typeMetaArray then "single"
        else listPredicateStr0
      let r := cwp v childNode refNode listPredicateStr
      let predicate := createRelationshipSubqueryAndPredicate matchPattern
        listPredicateStr childNode r.predicate false
      if r.returnVariables.length ≠ 0 then
        Except.ok { predicate := predicate
                    preComputedSubquery := some (PreComputedSubquery.aggregating
                      matchPattern r.preComputedSubqueries r.returnVariables) }
      else
        Except.ok { predicate := predicate
                    preComputedSubquery := r.preComputedSubqueries.map
                      PreComputedSubquery.passthrough }

/-! ### createEdgeSubquery: authorization filter and validate predicates -/

/-- Modelled from the spec: the fixed failure signal of violated validate/allow rules.
The constant `AUTH_FORBIDDEN_ERROR` is imported from `../../constants`, which is not
in the source tree; spec sections 4.3 and 6 fix the observable signal as the string
`"Forbidden"`, asserted verbatim by the conformance test in the source tree
(`expect(addLolResponse.errors?.[0]?.message).toContain("Forbidden")`). -/
def AUTH_FORBIDDEN_ERROR : String := "Forbidden"

/-- A conjunct of a match clause's WHERE, as accumulated by repeated `.where(...)`
calls: either a plain boolean predicate, or the assertion primitive
`apoc.ValidatePredicate(cond, msg)`, which raises `msg` when `cond` holds and
otherwise passes. -/
inductive ClausePred (α : Type) where
  | plain (p : α → Bool)
  | validatePred (cond : α → Bool) (msg : String)

/-- The observable part of the match clause built by `createEdgeSubquery`: the
labels of the related-node reference, the relationship type, and the accumulated
WHERE conjuncts in the order the `.where(...)` calls were made. -/
structure EdgeMatchClause (α : Type) where
  relatedNodeLabels : List String
  relType : String
  wherePreds : List (ClausePred α)

/-- Appending one `.where(...)` conjunct (cypher-builder semantics: repeated
`.where` calls combine with AND). -/
def EdgeMatchClause.addWhere {α : Type} (c : EdgeMatchClause α) (p : ClausePred α) :
    EdgeMatchClause α :=
  { c with wherePreds := c.wherePreds ++ [p] }

/-- Embedding of the filtering and authorization part of `createEdgeSubquery`
(create-connection-operation.ts). The related node reference uses
`relatedNode.getLabels(context)`. The connection where predicate (from
`createConnectionWherePropertyOperation`, not in the source tree) and the two
authorization predicates (from `createAuthPredicates`, not in the source tree) are
injected as optional boolean functions: the `where`-scoped rule predicate
(`authPredicate`, filter rules) is added as a plain conjunct, while the
`allow`-scoped rule predicate (`authAllowPredicate`, validate rules) is wrapped as
`CypherBuilder.apoc.ValidatePredicate(CypherBuilder.not(authAllowPredicate),
AUTH_FORBIDDEN_ERROR)`. Projection building is omitted. -/
def createEdgeSubquery {α : Type} (relatedNode : SchemaNode) (relType : String)
    (wherePredicate : Option (α → Bool)) (authPredicate : Option (α → Bool))
    (authAllowPredicate : Option (α → Bool)) : EdgeMatchClause α :=
  let matchClause : EdgeMatchClause α :=
    { relatedNodeLabels := relatedNode.getLabels, relType := relType, wherePreds := [] }
  let matchClause :=
    match wherePredicate with
    | some w => matchClause.addWhere (ClausePred.plain w)
    | none => matchClause
  let matchClause :=
    match authPredicate with
    | some f => matchClause.addWhere (ClausePred.plain f)
    | none => matchClause
  match authAllowPredicate with
  | some g => matchClause.addWhere
      (ClausePred.validatePred (fun x => !(g x)) AUTH_FORBIDDEN_ERROR)
  | none => matchClause

/-- Evaluation of one WHERE conjunct at a candidate row: a plain predicate yields
its boolean, the assertion primitive raises its message when its condition holds. -/
def ClausePred.evalAt {α : Type} (x : α) : ClausePred α → Except String Bool
  | .plain p => Except.ok (p x)
  | .validatePred cond msg => if cond x then Except.error msg else Except.ok true

/-- Evaluation of an accumulated WHERE conjunct list at a candidate row: the
conjunction of all conjuncts, with assertion failures propagating as errors. -/
def evalWherePreds {α : Type} (x : α) (ps : List (ClausePred α)) : Except String Bool :=
  ps.foldl
    (fun acc p => do
      let a ← acc
      let b ← p.evalAt x
      pure (a && b))
    (Except.ok true)

/-! ### Polymorphic interface branches -/

/-- The per-concrete-type match pattern inside interface traversal: the child node
uses that concrete type's own labels (`SchemaNode.getLabels`, honoring custom label
overrides), the parent and relationship type are shared. -/
def interfacePattern (relType : String) (direction : String) (parentNode : CypherNode)
    (concrete : SchemaNode) : RelPattern :=
  { source := if direction = "IN" then { labels := concrete.getLabels } else parentNode
    target := if direction = "IN" then parentNode else { labels := concrete.getLabels }
    relType := relType }

/-- Modelled from the spec: the interface (polymorphic) relationship filter combiner
at the SOME-equivalent level (the interface handling of `create-where-predicate.ts`
is not in the source tree). Spec section 4.1: "each concrete type contributes its own
independent match+predicate branch, and branches combine with `OR` at the
`SOME`-equivalent level"; mirrored by the TCK snapshot in
`tests/tck/issues/2614.test.ts` (`EXISTS {...Dog...} OR EXISTS {...Cat...}`).
Each branch is an `EXISTS` over that concrete type's own match pattern with that
type's sub-predicate; an empty branch list yields no predicate. -/
def createInterfaceSomePredicate {α : Type} (relType : String) (direction : String)
    (parentNode : CypherNode) (branches : List (SchemaNode × CPred α)) :
    Option (RelPred α) :=
  match branches.map (fun b =>
      RelPred.existsMatch (interfacePattern relType direction parentNode b.1) b.2) with
  | [] => none
  | p :: ps => some (ps.foldl RelPred.ror p)

/-! ### Populated-by callback application -/

/-- The three outcomes of a populated-by callback invocation: a value, the null
literal, or no value (`undefined`). -/
inductive CallbackResult (V : Type) where
  | value (v : V)
  | nullValue
  | noValue

/-- Reading a stored property of a record (association list of stored properties);
`none` is the absent/null reading. -/
def readProp {V : Type} (rec : List (String × V)) (field : String) : Option V :=
  (rec.find? (fun e => e.1 == field)).map (fun e => e.2)

/-- Modelled from the spec: applying one populated-by callback outcome to a stored
record during an operation on a pre-existing record (the mutation translation that
applies callbacks is not in the source tree). Spec sections 4.4 and 8: "returning
`null` from a callback removes the stored property, returning 'no value' leaves any
existing stored value untouched — both are terminal per-field outcomes, not
retried"; a returned value sets the field. The callback is applied exactly once. -/
def applyCallbackResult {V : Type} (rec : List (String × V)) (field : String) :
    CallbackResult V → List (String × V)
  | .value v => (field, v) :: rec.filter (fun e => !(e.1 == field))
  | .nullValue => rec.filter (fun e => !(e.1 == field))
  | .noValue => rec

/-! ### Parameter names and the parameter map -/

/-- Decimal digit list of a natural number, most significant first. Reference
function used to reason about `Nat.repr`. -/
def decDigits (n : Nat) : List Char :=
  if n / 10 = 0 then [Nat.digitChar (n % 10)]
  else decDigits (n / 10) ++ [Nat.digitChar (n % 10)]
termination_by n
decreasing_by
  have h10 : n / 10 < n := by
    apply Nat.div_lt_self _ (by omega)
    omega
  omega

/-- Decoding a most-significant-first decimal digit list. -/
def decodeDigits (cs : List Char) : Nat :=
  cs.foldl (fun acc c => 10 * acc + (c.toNat - 48)) 0

/-- The parameter name carrying a monotonically-increasing numeric suffix, as seen
in the rendered snapshots (`$param0`, `$param1`, ...). -/
def paramName (i : Nat) : String :=
  "param" ++ Nat.repr i

/-- Modelled from the spec: the parameter builder of the AST renderer (the
cypher-builder package that generates parameter names is not in the source tree).
Spec section 3: parameter-name uniqueness is "guaranteed by a
monotonically-increasing disambiguation suffix", and the parameter map invariant is
"every parameter referenced in rendered text has exactly one entry, and entries are
never overwritten (each literal gets a fresh name)". The builder holds the counter,
the name-to-literal entries in insertion order, and the names emitted into rendered
text. -/
structure ParamBuilder (V : Type) where
  counter : Nat
  entries : List (String × V)
  referenced : List String

/-- The empty builder at the start of one translation. -/
def ParamBuilder.init {V : Type} : ParamBuilder V :=
  { counter := 0, entries := [], referenced := [] }

/-- Registering one literal occurrence: a fresh name from the counter, a new map
entry appended (never replacing an existing one), and a reference emitted into the
rendered text. -/
def ParamBuilder.addParam {V : Type} (b : ParamBuilder V) (v : V) :
    String × ParamBuilder V :=
  let name := paramName b.counter
  (name, { counter := b.counter + 1
           entries := b.entries ++ [(name, v)]
           referenced := b.referenced ++ [name] })

/-- Running one translation that registers the literal occurrences `vs` in order. -/
def runParams {V : Type} (vs : List V) : ParamBuilder V :=
  vs.foldl (fun b v => (b.addParam v).2) ParamBuilder.init

/-- Lookup in a parameter map represented as an association list; the first entry
for a key wins, so `listB ++ listA` is the JS object spread with `listB`'s keys
taking precedence. -/
def lookupParams {V : Type} (ps : List (String × V)) (k : String) : Option V :=
  (ps.find? (fun e => e.1 == k)).map (fun e => e.2)

/-- Embedding of `createConnectOrCreateAndParams`
(create-connect-or-create-and-params.ts, lines 16-54). The per-item subquery builder
(`createConnectOrCreateSubQuery`, whose body depends on `buildMergeStatement`, not in
the source tree) is injected as `sub`. The reduce gives item `index` the base name
`` `${varName}${index}` ``, collects the queries in order, and merges parameters as
`{ ...params, ...acc.params }` — the accumulated entries take precedence, so an
existing entry is never overwritten (in the first-entry-wins association-list
representation the accumulator is kept in front). -/
def createConnectOrCreateAndParams {V ω : Type}
    (sub : ω → String → String × List (String × V)) (input : List ω)
    (varName : String) : String × List (String × V) :=
  let result := input.enum.foldl
    (fun acc x =>
      let subqueryBaseName := varName ++ Nat.repr x.1
      let qp := sub x.2 subqueryBaseName
      (acc.1 ++ [qp.1], acc.2 ++ qp.2))
    (([] : List String), ([] : List (String × V)))
  (String.intercalate "\n" result.1, result.2)

/-! ### Concrete fixtures (used by witnesses and counterexamples) -/

/-- Fixture pattern, matching the TCK fixture `(this:House)<-[:LIVES_IN]-(:Animal)`. -/
def fixturePat : RelPattern :=
  { source := { labels := ["House"] }, target := { labels := ["Animal"] }
    relType := "LIVES_IN" }

/-- Fixture child node. -/
def fixtureChild : CypherNode := { labels := ["Animal"] }

/-- Fixture inner predicate over related entities encoded as naturals: entity `0`
matches, others do not. -/
def fixtureInner : CPred Nat := CPred.lift (fun x => x == 0)

/-- Fixture graph with no related entity. -/
def fixtureEmptyG : RelPattern → List Nat := fun _ => []

/-- Fixture graph with one matching and one non-matching related entity. -/
def fixtureMixedG : RelPattern → List Nat := fun _ => [0, 1]

/-- Fixture schema node with a custom label override (`Movie` with `@node(labels: ["Film"])`,
as in the 2614 TCK test). -/
def fixtureMovie : SchemaNode := { name := "Movie", labelOverride := some ["Film"] }

/-- Fixture context holding `fixtureMovie`. -/
def fixtureContext : Context := { nodes := [fixtureMovie] }

/-- Fixture relationship field `actors: [Actor!]! @relationship(type: "ACTED_IN", direction: IN)`
seen from `Movie`, pointing at the `Movie` type for filter purposes. -/
def fixtureRelField : RelationField :=
  { typeMetaName := "Movie", typeMetaArray := true, direction := "IN", type := "ACTED_IN" }

/-- Fixture to-one relationship field (non-array). -/
def fixtureRelFieldToOne : RelationField :=
  { typeMetaName := "Movie", typeMetaArray := false, direction := "OUT", type := "ACTED_IN" }

/-- Fixture parent node. -/
def fixtureParent : CypherNode := { labels := ["Actor"] }

/-- Fixture injected where-predicate compiler: always compiles to `fixtureInner`
with no precomputed subqueries. -/
def fixtureCwp : Unit → CypherNode → SchemaNode → String → WherePredicateResult Nat Unit :=
  fun _ _ _ _ =>
    { predicate := some fixtureInner, preComputedSubqueries := none, returnVariables := [] }

/-! ### Step lemmas for the quantifier compiler -/

theorem crsp_noInner {α : Type} (pat : RelPattern) (lp : String) (child : CypherNode)
    (ep : Bool) :
    createRelationshipSubqueryAndPredicate (α := α) pat lp child none ep = none := by
  rw [createRelationshipSubqueryAndPredicate]

theorem crsp_all {α : Type} (pat : RelPattern) (child : CypherNode) (inner : CPred α)
    (ep : Bool) :
    createRelationshipSubqueryAndPredicate pat "all" child (some inner) ep
      = some (RelPred.rand (RelPred.existsMatch pat inner)
          (RelPred.rnot (RelPred.existsMatch pat (CPred.cnot inner)))) := by
  rw [createRelationshipSubqueryAndPredicate]
  simp

theorem crsp_someLp {α : Type} (pat : RelPattern) (child : CypherNode) (inner : CPred α)
    (ep : Bool) :
    createRelationshipSubqueryAndPredicate pat "some" child (some inner) ep
      = some (RelPred.existsMatch pat inner) := by
  rw [createRelationshipSubqueryAndPredicate]
  simp

theorem crsp_any {α : Type} (pat : RelPattern) (child : CypherNode) (inner : CPred α)
    (ep : Bool) :
    createRelationshipSubqueryAndPredicate pat "any" child (some inner) ep
      = some (RelPred.existsMatch pat inner) := by
  rw [createRelationshipSubqueryAndPredicate]
  simp

theorem crsp_noneLp {α : Type} (pat : RelPattern) (child : CypherNode) (inner : CPred α)
    (ep : Bool) :
    createRelationshipSubqueryAndPredicate pat "none" child (some inner) ep
      = some (RelPred.rnot (RelPred.existsMatch pat inner)) := by
  rw [createRelationshipSubqueryAndPredicate]
  simp [crsp_someLp]

theorem crsp_notLp {α : Type} (pat : RelPattern) (child : CypherNode) (inner : CPred α)
    (ep : Bool) :
    createRelationshipSubqueryAndPredicate pat "not" child (some inner) ep
      = some (RelPred.rnot (RelPred.existsMatch pat inner)) := by
  rw [createRelationshipSubqueryAndPredicate]
  simp [crsp_someLp]

theorem crsp_single_edge {α : Type} (pat : RelPattern) (child : CypherNode)
    (inner : CPred α) :
    createRelationshipSubqueryAndPredicate pat "single" child (some inner) true
      = some (RelPred.sizeEq1 pat inner) := by
  rw [createRelationshipSubqueryAndPredicate]
  simp

theorem crsp_single_node {α : Type} (pat : RelPattern) (child : CypherNode)
    (inner : CPred α) :
    createRelationshipSubqueryAndPredicate pat "single" child (some inner) false
      = some (RelPred.singleMatch pat child inner) := by
  rw [createRelationshipSubqueryAndPredicate]
  simp

/-! ### Claim theorems C1-C3 -/

/-- C1: for the ALL quantifier with a non-empty inner predicate,
`createRelationshipSubqueryAndPredicate` returns the conjunction of EXISTS over the
match-with-predicate and NOT EXISTS over the match-with-negated-predicate (both over
the same match pattern), and consequently a target with zero related entities does
not satisfy an ALL filter that carries constraints. -/
theorem all_filter_two_sided_and_empty_fails {α : Type} (pat : RelPattern)
    (child : CypherNode) (inner : CPred α) (ep : Bool) (G : RelPattern → List α)
    (hG : G pat = []) :
    createRelationshipSubqueryAndPredicate pat "all" child (some inner) ep
      = some (RelPred.rand (RelPred.existsMatch pat inner)
          (RelPred.rnot (RelPred.existsMatch pat (CPred.cnot inner))))
    ∧ RelPred.eval G (RelPred.rand (RelPred.existsMatch pat inner)
          (RelPred.rnot (RelPred.existsMatch pat (CPred.cnot inner)))) = false := by
  refine ⟨crsp_all pat child inner ep, ?_⟩
  simp [RelPred.eval, hG]

/-- Witness for C1 at a concrete fixture: the empty related-entity set, where the
compiled ALL predicate evaluates to false. -/
theorem all_filter_two_sided_and_empty_fails_witness :
    fixtureEmptyG fixturePat = []
    ∧ (createRelationshipSubqueryAndPredicate fixturePat "all" fixtureChild
          (some fixtureInner) false
        = some (RelPred.rand (RelPred.existsMatch fixturePat fixtureInner)
            (RelPred.rnot (RelPred.existsMatch fixturePat (CPred.cnot fixtureInner))))
      ∧ RelPred.eval fixtureEmptyG (RelPred.rand
            (RelPred.existsMatch fixturePat fixtureInner)
            (RelPred.rnot (RelPred.existsMatch fixturePat (CPred.cnot fixtureInner))))
          = false) :=
  ⟨rfl, all_filter_two_sided_and_empty_fails fixturePat fixtureChild fixtureInner false
    fixtureEmptyG rfl⟩

/-- C2 counterexample: with one matching and one non-matching related entity, the
compiled ALL predicate and the compiled NONE predicate both evaluate to false, so
the pair is not an exact logical complement. -/
theorem all_none_not_complements_counterexample :
    ((createRelationshipSubqueryAndPredicate fixturePat "all" fixtureChild
        (some fixtureInner) false).map (RelPred.eval fixtureMixedG)) = some false
    ∧ ((createRelationshipSubqueryAndPredicate fixturePat "none" fixtureChild
        (some fixtureInner) false).map (RelPred.eval fixtureMixedG)) = some false := by
  rw [crsp_all, crsp_noneLp]
  simp only [Option.map_some']
  constructor <;> rfl

/-- C2 amended: the compiled ALL and NONE predicates are never both true, NONE is
the exact complement of the compiled SOME predicate, and the ALL/NONE pair is a
complement pair (exactly one true) precisely unless the related-entity set contains
both a matching and a non-matching entity. -/
theorem all_none_exclusive_and_none_complements_some {α : Type} (pat : RelPattern)
    (child : CypherNode) (inner : CPred α) (ep : Bool) (G : RelPattern → List α) :
    ((createRelationshipSubqueryAndPredicate pat "all" child (some inner) ep).map
        (RelPred.eval G) = some false
      ∨ (createRelationshipSubqueryAndPredicate pat "none" child (some inner) ep).map
        (RelPred.eval G) = some false)
    ∧ (createRelationshipSubqueryAndPredicate pat "none" child (some inner) ep).map
        (RelPred.eval G)
      = some (!((createRelationshipSubqueryAndPredicate pat "some" child (some inner)
          ep).map (RelPred.eval G)).getD false)
    ∧ ((createRelationshipSubqueryAndPredicate pat "all" child (some inner) ep).map
          (RelPred.eval G) = some false
        ∧ (createRelationshipSubqueryAndPredicate pat "none" child (some inner)
          ep).map (RelPred.eval G) = some false)
      = ((G pat).any (fun x => inner.eval x) = true
        ∧ (G pat).any (fun x => !(inner.eval x)) = true) := by
  rw [crsp_all, crsp_noneLp, crsp_someLp]
  simp only [Option.map_some', Option.getD_some, RelPred.eval, CPred.eval, eq_iff_iff,
    Option.some_inj]
  cases hm : (G pat).any (fun x => inner.eval x) <;>
    cases hn : (G pat).any (fun x => !(inner.eval x)) <;>
      simp [hm, hn]

/-- C3: the SINGLE quantifier compiles to `size(pattern-comprehension) = 1` when the
inner predicate depends on edge properties (`edgePredicate` set) and to the
`single()` cardinality primitive otherwise, and both forms evaluate to true iff
exactly one related entity matches the inner predicate. -/
theorem single_quantifier_cardinality_one {α : Type} (pat : RelPattern)
    (child : CypherNode) (inner : CPred α) (G : RelPattern → List α) :
    createRelationshipSubqueryAndPredicate pat "single" child (some inner) true
      = some (RelPred.sizeEq1 pat inner)
    ∧ createRelationshipSubqueryAndPredicate pat "single" child (some inner) false
      = some (RelPred.singleMatch pat child inner)
    ∧ (RelPred.eval G (RelPred.sizeEq1 pat inner) = true
        ↔ ((G pat).filter (fun x => inner.eval x)).length = 1)
    ∧ (RelPred.eval G (RelPred.singleMatch pat child inner) = true
        ↔ ((G pat).filter (fun x => inner.eval x)).length = 1) := by
  refine ⟨crsp_single_edge pat child inner, crsp_single_node pat child inner, ?_, ?_⟩ <;>
    simp [RelPred.eval]

/-! ### Claim theorems C8, C10, C7 -/

/-- C8: a relationship filter on the null literal compiles to an existence
sub-pattern check with no inner predicate — `NOT EXISTS` of the relationship match
pattern without `isNot`, `EXISTS` of the same pattern with `isNot` — and the
`NOT EXISTS` form holds exactly on targets with no related match. -/
theorem null_filter_compiles_to_existence {α σ ω : Type}
    (cwp : ω → CypherNode → SchemaNode → String → WherePredicateResult α σ)
    (rf : RelationField) (ctx : Context) (parentNode : CypherNode)
    (operator : Option String) (refNode : SchemaNode)
    (h : ctx.nodes.find? (fun n => n.name == rf.typeMetaName) = some refNode)
    (G : RelPattern → List α) :
    createRelationshipOperation cwp rf ctx parentNode operator none false
      = Except.ok ⟨some (RelPred.rnot (RelPred.existsPattern
          (relationshipMatchPattern rf parentNode { labels := refNode.getLabels }))),
          none⟩
    ∧ createRelationshipOperation cwp rf ctx parentNode operator none true
      = Except.ok ⟨some (RelPred.existsPattern
          (relationshipMatchPattern rf parentNode { labels := refNode.getLabels })),
          none⟩
    ∧ RelPred.eval G (RelPred.rnot (RelPred.existsPattern
          (relationshipMatchPattern rf parentNode { labels := refNode.getLabels })))
      = (G (relationshipMatchPattern rf parentNode
          { labels := refNode.getLabels })).isEmpty := by
  unfold createRelationshipOperation
  rw [h]
  refine ⟨rfl, rfl, ?_⟩
  simp [RelPred.eval]

/-- Witness for C8 at a concrete fixture. -/
theorem null_filter_compiles_to_existence_witness :
    fixtureContext.nodes.find? (fun n => n.name == fixtureRelField.typeMetaName)
        = some fixtureMovie
    ∧ (createRelationshipOperation fixtureCwp fixtureRelField fixtureContext
          fixtureParent none none false
        = Except.ok ⟨some (RelPred.rnot (RelPred.existsPattern
            (relationshipMatchPattern fixtureRelField fixtureParent
              { labels := fixtureMovie.getLabels }))),
            none⟩
      ∧ createRelationshipOperation fixtureCwp fixtureRelField fixtureContext
          fixtureParent none none true
        = Except.ok ⟨some (RelPred.existsPattern
            (relationshipMatchPattern fixtureRelField fixtureParent
              { labels := fixtureMovie.getLabels })),
            none⟩
      ∧ RelPred.eval fixtureEmptyG (RelPred.rnot (RelPred.existsPattern
            (relationshipMatchPattern fixtureRelField fixtureParent
              { labels := fixtureMovie.getLabels })))
        = (fixtureEmptyG (relationshipMatchPattern fixtureRelField fixtureParent
            { labels := fixtureMovie.getLabels })).isEmpty) :=
  ⟨rfl, null_filter_compiles_to_existence fixtureCwp fixtureRelField fixtureContext
    fixtureParent none fixtureMovie rfl fixtureEmptyG⟩

/-- C10: when the operator maps to the `"any"` list predicate but the relationship
field is declared to-one (non-array), the compiler downgrades the quantifier to
`"single"`: the inner predicate is compiled at the `"single"` level and the result is
the cardinality-one `single()` predicate (true iff exactly one related entity
matches) rather than a plain EXISTS. -/
theorem to_one_any_downgraded_to_single {α σ ω : Type}
    (cwp : ω → CypherNode → SchemaNode → String → WherePredicateResult α σ)
    (rf : RelationField) (ctx : Context) (parentNode : CypherNode)
    (operator : Option String) (v : ω) (isNot : Bool) (refNode : SchemaNode)
    (inner : CPred α)
    (h : ctx.nodes.find? (fun n => n.name == rf.typeMetaName) = some refNode)
    (hop : getListPredicate operator = "any")
    (harr : rf.typeMetaArray = false)
    (hcwp : (cwp v { labels := refNode.getLabels } refNode "single").predicate
        = some inner)
    (hrv : (cwp v { labels := refNode.getLabels } refNode "single").returnVariables
        = [])
    (G : RelPattern → List α) :
    createRelationshipOperation cwp rf ctx parentNode operator (some v) isNot
      = Except.ok ⟨some (RelPred.singleMatch
          (relationshipMatchPattern rf parentNode { labels := refNode.getLabels })
          { labels := refNode.getLabels } inner),
          (cwp v { labels := refNode.getLabels } refNode
            "single").preComputedSubqueries.map PreComputedSubquery.passthrough⟩
    ∧ (RelPred.eval G (RelPred.singleMatch
          (relationshipMatchPattern rf parentNode { labels := refNode.getLabels })
          { labels := refNode.getLabels } inner) = true
        ↔ ((G (relationshipMatchPattern rf parentNode
            { labels := refNode.getLabels })).filter
              (fun x => inner.eval x)).length = 1) := by
  constructor
  · unfold createRelationshipOperation
    rw [h]
    simp [hop, harr, hcwp, hrv, crsp_single_node]
  · simp [RelPred.eval]

/-- Witness for C10 at a concrete fixture: a to-one field with no operator
(default `SOME`) compiles via the `single()` cardinality primitive. -/
theorem to_one_any_downgraded_to_single_witness :
    fixtureContext.nodes.find? (fun n => n.name == fixtureRelFieldToOne.typeMetaName)
        = some fixtureMovie
    ∧ getListPredicate none = "any"
    ∧ fixtureRelFieldToOne.typeMetaArray = false
    ∧ (fixtureCwp () { labels := fixtureMovie.getLabels } fixtureMovie
        "single").predicate = some fixtureInner
    ∧ (fixtureCwp () { labels := fixtureMovie.getLabels } fixtureMovie
        "single").returnVariables = []
    ∧ (createRelationshipOperation fixtureCwp fixtureRelFieldToOne fixtureContext
          fixtureParent none (some ()) false
        = Except.ok ⟨some (RelPred.singleMatch
            (relationshipMatchPattern fixtureRelFieldToOne fixtureParent
              { labels := fixtureMovie.getLabels })
            { labels := fixtureMovie.getLabels } fixtureInner),
            (fixtureCwp () { labels := fixtureMovie.getLabels } fixtureMovie
              "single").preComputedSubqueries.map PreComputedSubquery.passthrough⟩
      ∧ (RelPred.eval fixtureMixedG (RelPred.singleMatch
            (relationshipMatchPattern fixtureRelFieldToOne fixtureParent
              { labels := fixtureMovie.getLabels })
            { labels := fixtureMovie.getLabels } fixtureInner) = true
          ↔ ((fixtureMixedG (relationshipMatchPattern fixtureRelFieldToOne
              fixtureParent { labels := fixtureMovie.getLabels })).filter
                (fun x => fixtureInner.eval x)).length = 1)) :=
  ⟨rfl, rfl, rfl, rfl, rfl,
    to_one_any_downgraded_to_single fixtureCwp fixtureRelFieldToOne fixtureContext
      fixtureParent none () false fixtureMovie fixtureInner rfl rfl rfl rfl rfl
      fixtureMixedG⟩

/-- For a non-null filter value, the predicate component of
`createRelationshipOperation` is the quantifier compilation of the inner predicate
at the (possibly downgraded) list predicate over the built match pattern. -/
theorem cro_some_predicate {α σ ω : Type}
    (cwp : ω → CypherNode → SchemaNode → String → WherePredicateResult α σ)
    (rf : RelationField) (ctx : Context) (parentNode : CypherNode)
    (operator : Option String) (v : ω) (isNot : Bool) (refNode : SchemaNode)
    (h : ctx.nodes.find? (fun n => n.name == rf.typeMetaName) = some refNode) :
    (createRelationshipOperation cwp rf ctx parentNode operator (some v) isNot).map
      (fun r => r.predicate)
    = Except.ok (createRelationshipSubqueryAndPredicate
        (relationshipMatchPattern rf parentNode { labels := refNode.getLabels })
        (if getListPredicate operator == "any" && !rf.typeMetaArray then "single"
          else getListPredicate operator)
        { labels := refNode.getLabels }
        (cwp v { labels := refNode.getLabels } refNode
          (if getListPredicate operator == "any" && !rf.typeMetaArray then "single"
            else getListPredicate operator)).predicate false) := by
  unfold createRelationshipOperation
  rw [h]
  dsimp only
  split <;> split <;> rfl

/-- For the null filter value, `createRelationshipOperation` returns the existence
predicate over the match pattern (negated unless `isNot`), with no precomputed
subquery. -/
theorem cro_null_predicate {α σ ω : Type}
    (cwp : ω → CypherNode → SchemaNode → String → WherePredicateResult α σ)
    (rf : RelationField) (ctx : Context) (parentNode : CypherNode)
    (operator : Option String) (isNot : Bool) (refNode : SchemaNode)
    (h : ctx.nodes.find? (fun n => n.name == rf.typeMetaName) = some refNode) :
    createRelationshipOperation cwp rf ctx parentNode operator none isNot
      = Except.ok ⟨some (if isNot then RelPred.existsPattern
            (relationshipMatchPattern rf parentNode { labels := refNode.getLabels })
          else RelPred.rnot (RelPred.existsPattern
            (relationshipMatchPattern rf parentNode { labels := refNode.getLabels }))),
          none⟩ := by
  unfold createRelationshipOperation
  rw [h]
  cases isNot <;> rfl

/-- Every pattern inside a predicate produced by
`createRelationshipSubqueryAndPredicate` is the match pattern it was given. -/
theorem crsp_patterns_eq {α : Type} (pat : RelPattern) (lp : String)
    (child : CypherNode) (inner : CPred α) (ep : Bool) (P : RelPred α)
    (hP : createRelationshipSubqueryAndPredicate pat lp child (some inner) ep
      = some P) :
    ∀ q ∈ P.patternsOf, q = pat := by
  rw [createRelationshipSubqueryAndPredicate] at hP
  split_ifs at hP with h1 h2 h3 h4 <;>
    [skip; rw [crsp_someLp] at hP; skip; skip; skip] <;>
    simp only [Option.some_inj] at hP <;>
    subst hP <;>
    simp [RelPred.patternsOf]

/-- C7: a custom label override on a schema node is used verbatim in every compiled
pattern that references that node: `getLabels` returns the override itself, every
pattern inside a predicate compiled by `createRelationshipOperation` for a filter on
that node carries the override labels on the child side, the related-node reference
of the connection edge subquery uses the override labels, and inside polymorphic
interface traversal every branch pattern uses its own concrete type's labels. -/
theorem custom_label_override_used_verbatim {α σ ω : Type}
    (cwp : ω → CypherNode → SchemaNode → String → WherePredicateResult α σ)
    (rf : RelationField) (ctx : Context) (parentNode : CypherNode)
    (operator : Option String) (value : Option ω) (isNot : Bool)
    (refNode : SchemaNode) (ls : List String)
    (res : RelationshipOperationResult α σ) (P : RelPred α)
    (h : ctx.nodes.find? (fun n => n.name == rf.typeMetaName) = some refNode)
    (hov : refNode.labelOverride = some ls)
    (hres : createRelationshipOperation cwp rf ctx parentNode operator value isNot
      = Except.ok res)
    (hP : res.predicate = some P) :
    refNode.getLabels = ls
    ∧ (∀ q ∈ P.patternsOf,
        (if rf.direction = "IN" then q.source else q.target) = { labels := ls })
    ∧ (∀ (relatedNode : SchemaNode) (relType : String)
        (w f g : Option (α → Bool)), relatedNode.labelOverride = some ls →
        (createEdgeSubquery relatedNode relType w f g).relatedNodeLabels = ls)
    ∧ (∀ (relType direction : String) (pn : CypherNode)
        (branches : List (SchemaNode × CPred α)) (P2 : RelPred α),
        createInterfaceSomePredicate relType direction pn branches = some P2 →
        P2.patternsOf
          = branches.map (fun b => interfacePattern relType direction pn b.1)) := by
  have hlab : refNode.getLabels = ls := by
    simp [SchemaNode.getLabels, hov]
  have hchild : ∀ q ∈ P.patternsOf,
      (if rf.direction = "IN" then q.source else q.target) = { labels := ls } := by
    cases value with
    | none =>
      rw [cro_null_predicate cwp rf ctx parentNode operator isNot refNode h] at hres
      have hresEq : res
          = ⟨some (if isNot then RelPred.existsPattern
                (relationshipMatchPattern rf parentNode { labels := refNode.getLabels })
              else RelPred.rnot (RelPred.existsPattern
                (relationshipMatchPattern rf parentNode
                  { labels := refNode.getLabels }))), none⟩ := by
        injection hres with hres2
        exact hres2.symm
      subst hresEq
      simp only at hP
      cases isNot <;> simp only [if_true, if_false, Bool.false_eq_true,
        Option.some_inj] at hP <;> subst hP <;>
        intro q hq <;>
        simp only [RelPred.patternsOf, List.mem_singleton] at hq <;>
        subst hq <;>
        (by_cases hdir : rf.direction = "IN" <;>
          simp [relationshipMatchPattern, hdir, hlab])
    | some v =>
      have hmap := cro_some_predicate cwp rf ctx parentNode operator v isNot refNode h
      rw [hres] at hmap
      simp only [Except.map, Except.ok.injEq] at hmap
      rw [hP] at hmap
      rcases hcase : (cwp v { labels := refNode.getLabels } refNode
          (if getListPredicate operator == "any" && !rf.typeMetaArray then "single"
            else getListPredicate operator)).predicate with _ | inner
      · rw [hcase, crsp_noInner] at hmap
        cases hmap
      · rw [hcase] at hmap
        intro q hq
        have hq2 := crsp_patterns_eq _ _ _ _ _ _ hmap.symm q hq
        subst hq2
        by_cases hdir : rf.direction = "IN" <;>
          simp [relationshipMatchPattern, hdir, hlab]
  refine ⟨hlab, hchild, ?_, ?_⟩
  · intro relatedNode relType w f g hov2
    unfold createEdgeSubquery
    cases w <;> cases f <;> cases g <;>
      simp [EdgeMatchClause.addWhere, SchemaNode.getLabels, hov2]
  · intro relType direction pn branches P2 hP2
    unfold createInterfaceSomePredicate at hP2
    rcases branches with _ | ⟨b0, rest⟩
    · simp at hP2
    · simp only [List.map_cons, Option.some_inj] at hP2
      cases hP2
      clear hchild hP hres
      induction rest using List.reverseRecOn with
      | nil => simp [RelPred.patternsOf]
      | append_singleton rest b ih =>
        simp only [List.map_append, List.map_cons, List.map_nil, List.foldl_append,
          List.foldl_cons, List.foldl_nil, RelPred.patternsOf, ih]
        simp [RelPred.patternsOf, List.map_append]

/-- Witness for C7 at the 2614 fixture: `Movie` overridden to label `Film`. -/
theorem custom_label_override_used_verbatim_witness :
    fixtureContext.nodes.find? (fun n => n.name == fixtureRelField.typeMetaName)
        = some fixtureMovie
    ∧ fixtureMovie.labelOverride = some ["Film"]
    ∧ createRelationshipOperation fixtureCwp fixtureRelField fixtureContext
        fixtureParent none (some ()) false
      = Except.ok ⟨some (RelPred.existsMatch (relationshipMatchPattern fixtureRelField
          fixtureParent { labels := fixtureMovie.getLabels }) fixtureInner), none⟩
    ∧ fixtureMovie.getLabels = ["Film"]
    ∧ (∀ q ∈ (RelPred.existsMatch (relationshipMatchPattern fixtureRelField
          fixtureParent { labels := fixtureMovie.getLabels })
          fixtureInner).patternsOf,
        (if fixtureRelField.direction = "IN" then q.source else q.target)
          = { labels := ["Film"] }) := by
  have hres : createRelationshipOperation fixtureCwp fixtureRelField fixtureContext
      fixtureParent none (some ()) false
      = Except.ok ⟨some (RelPred.existsMatch (relationshipMatchPattern fixtureRelField
          fixtureParent { labels := fixtureMovie.getLabels }) fixtureInner), none⟩ := by
    unfold createRelationshipOperation
    simp [fixtureContext, fixtureRelField, fixtureMovie, fixtureCwp, getListPredicate,
      crsp_any]
  have main := custom_label_override_used_verbatim fixtureCwp fixtureRelField
    fixtureContext fixtureParent none (some ()) false fixtureMovie ["Film"]
    ⟨some (RelPred.existsMatch (relationshipMatchPattern fixtureRelField
      fixtureParent { labels := fixtureMovie.getLabels }) fixtureInner), none⟩
    (RelPred.existsMatch (relationshipMatchPattern fixtureRelField fixtureParent
      { labels := fixtureMovie.getLabels }) fixtureInner)
    rfl rfl hres rfl
  exact ⟨rfl, rfl, hres, main.1, main.2.1⟩

/-! ### Claim theorem C4 -/

/-- Evaluating an OR-fold of predicates: true iff the seed or any element holds. -/
theorem eval_foldl_ror {α : Type} (G : RelPattern → List α) :
    ∀ (ps : List (RelPred α)) (p : RelPred α),
      RelPred.eval G (ps.foldl RelPred.ror p)
        = (RelPred.eval G p || ps.any (fun q => RelPred.eval G q))
  | [], p => by simp
  | q :: ps, p => by
    rw [List.foldl_cons, eval_foldl_ror G ps (RelPred.ror p q)]
    simp [RelPred.eval, Bool.or_assoc]

/-- C4: a filter on an interface relationship field at the SOME-equivalent level
compiles each concrete implementing type to its own independent match+predicate
branch over that type's own pattern, the branches are combined with OR, and the
resulting predicate holds iff some concrete-type branch matches. -/
theorem interface_branches_combine_with_or {α : Type} (relType direction : String)
    (parentNode : CypherNode) (b0 : SchemaNode × CPred α)
    (rest : List (SchemaNode × CPred α)) (G : RelPattern → List α) :
    ∃ P, createInterfaceSomePredicate relType direction parentNode (b0 :: rest)
        = some P
      ∧ P = (rest.map (fun b => RelPred.existsMatch
            (interfacePattern relType direction parentNode b.1) b.2)).foldl
            RelPred.ror
            (RelPred.existsMatch (interfacePattern relType direction parentNode b0.1)
              b0.2)
      ∧ RelPred.eval G P
        = ((b0 :: rest).any (fun b =>
            (G (interfacePattern relType direction parentNode b.1)).any
              (fun x => b.2.eval x))) := by
  refine ⟨_, rfl, rfl, ?_⟩
  rw [eval_foldl_ror]
  simp only [List.any_cons, RelPred.eval]
  congr 1
  induction rest with
  | nil => rfl
  | cons b bs ih => simp [RelPred.eval, ih]

/-! ### Claim theorem C5 -/

/-- C5: the authorization filter-rule predicate is AND-ed directly into the
enclosing WHERE as a plain conjunct (silently narrowing: a failing filter yields an
excluded row, not an error), while the validate-rule predicate is wrapped in the
assertion primitive with the fixed failure signal `"Forbidden"`, raised whenever the
validate condition is violated, regardless of the filter outcome. -/
theorem filter_narrows_validate_asserts {α : Type} (relatedNode : SchemaNode)
    (relType : String) (w f g : α → Bool) (x : α) :
    (createEdgeSubquery relatedNode relType (some w) (some f) (some g)).wherePreds
      = [ClausePred.plain w, ClausePred.plain f,
         ClausePred.validatePred (fun y => !(g y)) AUTH_FORBIDDEN_ERROR]
    ∧ AUTH_FORBIDDEN_ERROR = "Forbidden"
    ∧ evalWherePreds x [ClausePred.plain w, ClausePred.plain f,
        ClausePred.validatePred (fun y => !(g y)) AUTH_FORBIDDEN_ERROR]
      = (if g x then Except.ok (w x && f x) else Except.error "Forbidden") := by
  refine ⟨rfl, rfl, ?_⟩
  cases hg : g x <;> cases hw : w x <;> cases hf : f x <;>
    (simp only [evalWherePreds, List.foldl_cons, List.foldl_nil, ClausePred.evalAt,
      AUTH_FORBIDDEN_ERROR, hg, hw, hf]
     all_goals rfl)

/-! ### Claim theorem C9 -/

/-- Removing a stored property makes it read as absent. -/
theorem readProp_erase_self {V : Type} (rec : List (String × V)) (field : String) :
    readProp (rec.filter (fun e => !(e.1 == field))) field = none := by
  simp only [readProp]
  induction rec with
  | nil => rfl
  | cons e rest ih =>
    cases he : (e.1 == field) with
    | false =>
      have hfilter : (!(e.1 == field)) = true := by rw [he]; rfl
      have hneg : ¬((e.1 == field) = true) := by rw [he]; exact Bool.false_ne_true
      rw [List.filter_cons_of_pos (p := fun x : String × V => !(x.1 == field)) hfilter,
        List.find?_cons_of_neg (p := fun x : String × V => x.1 == field) _ hneg]
      exact ih
    | true =>
      have hfilter : ¬((!(e.1 == field)) = true) := by rw [he]; simp
      rw [List.filter_cons_of_neg (p := fun x : String × V => !(x.1 == field)) hfilter]
      exact ih

/-- Removing one stored property leaves reads of every other property unchanged. -/
theorem readProp_erase_other {V : Type} (rec : List (String × V)) (field k : String)
    (hk : k ≠ field) :
    readProp (rec.filter (fun e => !(e.1 == field))) k = readProp rec k := by
  simp only [readProp]
  induction rec with
  | nil => rfl
  | cons e rest ih =>
    cases hek : (e.1 == k) with
    | true =>
      have h1 : e.1 = k := by simpa using hek
      have hef : (e.1 == field) = false := by
        rw [h1]
        exact beq_eq_false_iff_ne.mpr hk
      have hfilter : (!(e.1 == field)) = true := by rw [hef]; rfl
      have hpos : (e.1 == k) = true := hek
      rw [List.filter_cons_of_pos (p := fun x : String × V => !(x.1 == field)) hfilter,
        List.find?_cons_of_pos (p := fun x : String × V => x.1 == k) _ hpos,
        List.find?_cons_of_pos (p := fun x : String × V => x.1 == k) _ hpos]
    | false =>
      have hneg : ¬((e.1 == k) = true) := by rw [hek]; exact Bool.false_ne_true
      cases hef : (e.1 == field) with
      | true =>
        have hfilter : ¬((!(e.1 == field)) = true) := by rw [hef]; simp
        rw [List.filter_cons_of_neg (p := fun x : String × V => !(x.1 == field)) hfilter,
          List.find?_cons_of_neg (p := fun x : String × V => x.1 == k) _ hneg]
        exact ih
      | false =>
        have hfilter : (!(e.1 == field)) = true := by rw [hef]; rfl
        rw [List.filter_cons_of_pos (p := fun x : String × V => !(x.1 == field)) hfilter,
          List.find?_cons_of_neg (p := fun x : String × V => x.1 == k) _ hneg,
          List.find?_cons_of_neg (p := fun x : String × V => x.1 == k) _ hneg]
        exact ih

/-- C9: for a field bound to a populated-by callback firing on a pre-existing
record, returning null removes the stored property (it subsequently reads as null),
returning no value leaves the record untouched, and in every case all other stored
properties of the record are unchanged. -/
theorem populatedBy_null_removes_noValue_keeps {V : Type}
    (rec : List (String × V)) (field k : String) (hk : k ≠ field) :
    readProp (applyCallbackResult rec field CallbackResult.nullValue) field = none
    ∧ applyCallbackResult rec field CallbackResult.noValue = rec
    ∧ (∀ r : CallbackResult V,
        readProp (applyCallbackResult rec field r) k = readProp rec k) := by
  refine ⟨readProp_erase_self rec field, rfl, ?_⟩
  intro r
  cases r with
  | value v =>
    have hfk : (field == k) = false :=
      beq_eq_false_iff_ne.mpr (fun h => hk h.symm)
    have hneg : ¬((field == k) = true) := by rw [hfk]; exact Bool.false_ne_true
    simp only [applyCallbackResult, readProp]
    rw [List.find?_cons_of_neg (p := fun x : String × V => x.1 == k) _ hneg]
    have h2 := readProp_erase_other rec field k hk
    simpa [readProp] using h2
  | nullValue => exact readProp_erase_other rec field k hk
  | noValue => rfl

/-- Witness for C9 at a concrete pre-seeded record. -/
theorem populatedBy_null_removes_noValue_keeps_witness :
    ("id" : String) ≠ "callback"
    ∧ (readProp (applyCallbackResult [("id", "m1"), ("callback", "c1")] "callback"
          CallbackResult.nullValue) "callback" = none
      ∧ applyCallbackResult [("id", "m1"), ("callback", "c1")] "callback"
          CallbackResult.noValue = [("id", "m1"), ("callback", "c1")]
      ∧ (∀ r : CallbackResult String,
          readProp (applyCallbackResult [("id", "m1"), ("callback", "c1")]
            "callback" r) "id"
          = readProp [("id", "m1"), ("callback", "c1")] "id")) :=
  ⟨by decide,
    populatedBy_null_removes_noValue_keeps [("id", "m1"), ("callback", "c1")]
      "callback" "id" (by decide)⟩

/-! ### Decimal parameter-name suffixes: correctness of the numeric rendering -/

/-- With enough fuel, the core digit accumulator produces the reference digit list
followed by the accumulator. -/
theorem toDigitsCore_eq_decDigits :
    ∀ (fuel n : Nat) (ds : List Char), n < fuel →
      Nat.toDigitsCore 10 fuel n ds = decDigits n ++ ds := by
  intro fuel
  induction fuel with
  | zero =>
    intro n ds h
    omega
  | succ f ih =>
    intro n ds h
    rw [decDigits]
    simp only [Nat.toDigitsCore]
    by_cases h0 : n / 10 = 0
    · rw [if_pos h0, if_pos h0]
      rfl
    · rw [if_neg h0, if_neg h0]
      have hlt : n / 10 < f := by omega
      rw [ih (n / 10) (Nat.digitChar (n % 10) :: ds) hlt]
      simp

/-- `Nat.repr` agrees with the reference digit list. -/
theorem nat_repr_eq_decDigits (n : Nat) : Nat.repr n = (decDigits n).asString := by
  simp only [Nat.repr, Nat.toDigits]
  rw [toDigitsCore_eq_decDigits (n + 1) n [] (Nat.lt_succ_self n), List.append_nil]

/-- Character codes of the decimal digit characters. -/
theorem digitChar_toNat {d : Nat} (h : d < 10) : (Nat.digitChar d).toNat = 48 + d := by
  interval_cases d <;> decide

/-- Decoding inverts the reference digit rendering. -/
theorem decodeDigits_decDigits (n : Nat) : decodeDigits (decDigits n) = n := by
  induction n using Nat.strong_induction_on with
  | _ n ih =>
    rw [decDigits]
    have hlt : n % 10 < 10 := by omega
    by_cases h0 : n / 10 = 0
    · rw [if_pos h0]
      simp only [decodeDigits, List.foldl_cons, List.foldl_nil]
      rw [digitChar_toNat hlt]
      omega
    · rw [if_neg h0]
      have hdiv : n / 10 < n := by omega
      have ihv := ih (n / 10) hdiv
      simp only [decodeDigits] at ihv ⊢
      rw [List.foldl_append, List.foldl_cons, List.foldl_nil, ihv,
        digitChar_toNat hlt]
      omega

/-- The reference digit rendering is injective. -/
theorem decDigits_inj {m n : Nat} (h : decDigits m = decDigits n) : m = n := by
  have h1 := decodeDigits_decDigits m
  rw [h, decodeDigits_decDigits] at h1
  exact h1.symm

/-- `Nat.repr` is injective. -/
theorem nat_repr_inj {m n : Nat} (h : Nat.repr m = Nat.repr n) : m = n := by
  apply decDigits_inj
  have h2 : (decDigits m).asString = (decDigits n).asString := by
    rw [← nat_repr_eq_decDigits, ← nat_repr_eq_decDigits, h]
  exact congrArg String.data h2

/-- Generated parameter names with distinct counter values are distinct. -/
theorem paramName_inj : Function.Injective paramName := by
  intro i j h
  apply nat_repr_inj
  have h2 := congrArg String.data h
  simp only [paramName, String.data_append] at h2
  exact String.ext (List.append_cancel_left h2)

/-! ### Builder run characterization -/

/-- Characterization of a builder run from an arbitrary starting state: the counter
advances by the number of literals, the entries gain one appended entry per literal
named by the consecutive counter values, and the referenced names gain exactly those
names. -/
theorem runParams_from {V : Type} :
    ∀ (vs : List V) (b : ParamBuilder V),
      (vs.foldl (fun b v => (b.addParam v).2) b).counter = b.counter + vs.length
      ∧ (vs.foldl (fun b v => (b.addParam v).2) b).entries
        = b.entries ++ ((List.range' b.counter vs.length).zip vs).map
            (fun p => (paramName p.1, p.2))
      ∧ (vs.foldl (fun b v => (b.addParam v).2) b).referenced
        = b.referenced ++ (List.range' b.counter vs.length).map paramName
  | [], b => by simp
  | v :: vs, b => by
    obtain ⟨hc, he, hr⟩ := runParams_from vs ((b.addParam v).2)
    refine ⟨?_, ?_, ?_⟩
    · rw [List.foldl_cons, hc]
      simp [ParamBuilder.addParam]
      omega
    · rw [List.foldl_cons, he]
      simp [ParamBuilder.addParam, List.range'_succ, List.zip_cons_cons]
    · rw [List.foldl_cons, hr]
      simp [ParamBuilder.addParam, List.range'_succ]

/-- The entry names of one whole run are the parameter names of the consecutive
counter values, independent of the literal values. -/
theorem runParams_names {V : Type} (vs : List V) :
    (runParams vs).entries.map Prod.fst = (List.range vs.length).map paramName := by
  obtain ⟨hc, he, hr⟩ := runParams_from vs (ParamBuilder.init (V := V))
  simp only [runParams]
  rw [he]
  simp only [ParamBuilder.init, List.nil_append, List.map_map,
    List.range_eq_range']
  rw [show (Prod.fst ∘ (fun p : Nat × V => (paramName p.1, p.2)))
      = (paramName ∘ Prod.fst) from rfl]
  rw [← List.map_map, List.map_fst_zip]
  rw [List.length_range']

/-- The referenced names of one whole run coincide with the entry names. -/
theorem runParams_referenced {V : Type} (vs : List V) :
    (runParams vs).referenced = (runParams vs).entries.map Prod.fst := by
  obtain ⟨hc, he, hr⟩ := runParams_from vs (ParamBuilder.init (V := V))
  rw [runParams_names]
  simp only [runParams]
  rw [hr]
  simp only [ParamBuilder.init, List.nil_append, List.range_eq_range']

/-- The entry names of one run contain no duplicates. -/
theorem runParams_names_nodup {V : Type} (vs : List V) :
    ((runParams vs).entries.map Prod.fst).Nodup := by
  rw [runParams_names]
  exact (List.nodup_range _).map paramName_inj

/-! ### The connect-or-create parameter merge -/

/-- Lookup across an appended parameter map: the earlier entries take precedence,
so entries present in the front map are never overwritten by the appended ones. -/
theorem lookupParams_append {V : Type} (a b : List (String × V)) (k : String) :
    lookupParams (a ++ b) k = (lookupParams a k).or (lookupParams b k) := by
  simp only [lookupParams, List.find?_append]
  cases List.find? (fun e => e.1 == k) a <;> simp

/-- The parameter accumulator of the connect-or-create reduce only ever grows by
appending the new subquery parameters behind the accumulated ones. -/
theorem cocap_fold_suffix {V ω : Type}
    (sub : ω → String → String × List (String × V)) (varName : String) :
    ∀ (l : List (Nat × ω)) (acc : List String × List (String × V)),
      ∃ extra, (l.foldl
        (fun acc x =>
          let subqueryBaseName := varName ++ Nat.repr x.1
          let qp := sub x.2 subqueryBaseName
          (acc.1 ++ [qp.1], acc.2 ++ qp.2)) acc).2 = acc.2 ++ extra
  | [], acc => ⟨[], by simp⟩
  | x :: l, acc => by
    obtain ⟨e, he⟩ := cocap_fold_suffix sub varName l
      (acc.1 ++ [(sub x.2 (varName ++ Nat.repr x.1)).1],
        acc.2 ++ (sub x.2 (varName ++ Nat.repr x.1)).2)
    exact ⟨(sub x.2 (varName ++ Nat.repr x.1)).2 ++ e,
      by simp only [List.foldl_cons, he, List.append_assoc]⟩

/-- Processing more connect-or-create input items only appends to the parameter
map built for a prefix of the input. -/
theorem cocap_params_suffix {V ω : Type}
    (sub : ω → String → String × List (String × V)) (input1 input2 : List ω)
    (varName : String) :
    ∃ extra, (createConnectOrCreateAndParams sub (input1 ++ input2) varName).2
      = (createConnectOrCreateAndParams sub input1 varName).2 ++ extra := by
  unfold createConnectOrCreateAndParams
  simp only [List.enum_append, List.foldl_append]
  exact cocap_fold_suffix sub varName (input2.enumFrom input1.length) _

/-! ### Claim theorem C6 -/

/-- C6: in one translation, generated parameter names are pairwise distinct and
value-independent (the names are the consecutive counter suffixes, so two
occurrences of the same literal still get fresh distinct names), every name
referenced in the rendered text has exactly one entry in the produced map,
registering one more literal appends a fresh entry without touching the existing
ones, and the connect-or-create reduce merges new subquery parameters behind the
accumulated map, so an accumulated entry is never overwritten. -/
theorem parameter_names_fresh_distinct_never_overwritten {V ω : Type} (vs : List V)
    (v : V) (sub : ω → String → String × List (String × V))
    (input1 input2 : List ω) (varName : String) :
    (runParams vs).referenced = (runParams vs).entries.map Prod.fst
    ∧ (runParams vs).entries.map Prod.fst = (List.range vs.length).map paramName
    ∧ ((runParams vs).entries.map Prod.fst).Nodup
    ∧ ((runParams vs).referenced.all (fun name =>
        ((runParams vs).entries.filter (fun e => e.1 == name)).length == 1)) = true
    ∧ (runParams (vs ++ [v])).entries
      = (runParams vs).entries ++ [(paramName vs.length, v)]
    ∧ (((runParams vs).entries.map Prod.fst).contains (paramName vs.length)) = false
    ∧ (∃ extra, (createConnectOrCreateAndParams sub (input1 ++ input2) varName).2
        = (createConnectOrCreateAndParams sub input1 varName).2 ++ extra)
    ∧ (∀ (a b : List (String × V)) (k : String),
        lookupParams (a ++ b) k = (lookupParams a k).or (lookupParams b k)) := by
  refine ⟨runParams_referenced vs, runParams_names vs, runParams_names_nodup vs,
    ?_, ?_, ?_, cocap_params_suffix sub input1 input2 varName,
    fun a b k => lookupParams_append a b k⟩
  · rw [List.all_eq_true]
    intro name hname
    rw [runParams_referenced vs] at hname
    have hcount : ((runParams vs).entries.map Prod.fst).count name = 1 :=
      List.count_eq_one_of_mem (runParams_names_nodup vs) hname
    have hlen : ((runParams vs).entries.filter (fun e => e.1 == name)).length
        = ((runParams vs).entries.map Prod.fst).count name := by
      rw [List.count, ← List.countP_eq_length_filter, List.countP_map]
      rfl
    rw [beq_iff_eq, hlen, hcount]
  · have hc := (runParams_from vs (ParamBuilder.init (V := V))).1
    have h0 : runParams (vs ++ [v]) = ((runParams vs).addParam v).2 := by
      simp only [runParams, List.foldl_append, List.foldl_cons, List.foldl_nil]
    have hcv : (runParams vs).counter = vs.length := by
      simp only [runParams]
      rw [hc]
      simp [ParamBuilder.init]
    rw [h0]
    simp only [ParamBuilder.addParam]
    rw [hcv]
  · rw [runParams_names vs]
    rw [List.contains_eq_any_beq, List.any_eq_false]
    intro name hname
    obtain ⟨i, hi, rfl⟩ := List.mem_map.mp hname
    have hilt : i < vs.length := List.mem_range.mp hi
    intro hcon
    have heq := paramName_inj (eq_of_beq hcon)
    omega

end GraphQLTranslate
